import Mathlib

/-!
Shallow embedding of `mobilenet_v3_keras.py` (MobileNet V3 graph builder).

Numbers: Python ints and floats are modelled as `ℤ` and `ℚ`; Python `int()`
truncates toward zero and `//` is floor division (`Int.fdiv`).  Tensors are
opaque value carriers (`ℕ → ℚ`); the external tensor-engine layers
(convolutions, batch norm, dense, pooling, dropout) are abstracted by an
interpretation function, while the parts the source computes itself
(activation dispatch, residual add, layer sequencing) are explicit.
Python exceptions (assert / raise / IndexError) are modelled with
`Except String`.
-/

/-- Python `int()` on a float: truncation toward zero. -/
def pyInt (q : ℚ) : ℤ := if 0 ≤ q then ⌊q⌋ else ⌈q⌉

/-- `prefixAt n h` is true when the char list `n` is an initial segment of `h`
(used to model Python's substring test). -/
def prefixAt : List Char → List Char → Bool
  | [], _ => true
  | _ :: _, [] => false
  | a :: as, b :: bs => a == b && prefixAt as bs

/-- `subList n h` is true when `n` occurs contiguously inside `h`. -/
def subList (n : List Char) : List Char → Bool
  | [] => n.isEmpty
  | b :: bs => prefixAt n (b :: bs) || subList n bs

/-- Python's `needle in hay` substring containment on strings. -/
def pyIn (needle hay : String) : Bool := subList needle.data hay.data

/-- The local `new_val` of `_round_to_multiple_of` (source line 38):
`max(divisor, int(val + divisor / 2) // divisor * divisor)`. -/
def round_candidate (val : ℚ) (divisor : ℤ) : ℤ :=
  max divisor ((pyInt (val + (divisor : ℚ) / 2)).fdiv divisor * divisor)

/-- Body of `_round_to_multiple_of` after the assert (source lines 38-39):
`return new_val if new_val >= round_up_bias * val else new_val + divisor`. -/
def round_apply (val : ℚ) (divisor : ℤ) (round_up_bias : ℚ) : ℤ :=
  if round_up_bias * val ≤ (round_candidate val divisor : ℚ) then round_candidate val divisor
  else round_candidate val divisor + divisor

/-- Source `_round_to_multiple_of(val, divisor, round_up_bias=0.9)`:
asserts `0.0 < round_up_bias < 1.0`; `// 0` would raise `ZeroDivisionError`. -/
def round_to_multiple_of (val : ℚ) (divisor : ℤ) (round_up_bias : ℚ) : Except String ℤ :=
  if 0 < round_up_bias ∧ round_up_bias < 1 then
    if divisor = 0 then .error "ZeroDivisionError: integer division or modulo by zero"
    else .ok (round_apply val divisor round_up_bias)
  else .error "AssertionError: 0.0 < round_up_bias < 1.0"

/-- Source `hard_sigmoid(x) = relu6(x + 3.0) / 6.0` on one tensor element. -/
def hard_sigmoid (x : ℚ) : ℚ := min (max (x + 3) 0) 6 / 6

/-- Source `hard_swish(x) = hard_sigmoid(x) * x` on one tensor element. -/
def hard_swish (x : ℚ) : ℚ := hard_sigmoid x * x

/-- Tensors are opaque value carriers; the core never inspects shapes. -/
abbrev Tensor := ℕ → ℚ

/-- Elementwise `hard_swish` on a tensor. -/
def hardswishT (t : Tensor) : Tensor := fun i => hard_swish (t i)

/-- Source `_activation(x, name)`: dispatch on the tag, raising
`ValueError` for an unsupported tag (source lines 24-30), applied
elementwise to a tensor. -/
def applyActivation (name : String) (t : Tensor) : Except String Tensor :=
  if name = "relu" then .ok (fun i => max (t i) 0)
  else if name = "hardswish" then .ok (hardswishT t)
  else .error ("Unsupported activation: " ++ name ++ ".")

instance {ε α : Type} [DecidableEq ε] [DecidableEq α] : DecidableEq (Except ε α)
  | .ok a, .ok b => decidable_of_iff (a = b) ⟨fun h => h ▸ rfl, fun h => by injection h⟩
  | .ok _, .error _ => isFalse (fun h => by injection h)
  | .error _, .ok _ => isFalse (fun h => by injection h)
  | .error e, .error f => decidable_of_iff (e = f) ⟨fun h => h ▸ rfl, fun h => by injection h⟩

example : round_to_multiple_of 83 8 (9/10) = .ok 80 := by with_unfolding_all decide
example : round_to_multiple_of 84 8 (9/10) = .ok 88 := by with_unfolding_all decide
example : round_to_multiple_of 10 (-8) (9/10) = .ok 0 := by with_unfolding_all decide
example : pyIn "large" "large_segmentation" = true := by decide
example : pyIn "small" "large_segmentation" = false := by decide

/-! ### Layer descriptors

One constructor per Keras layer kind the source instantiates.  Only the
configuration the source itself passes is recorded; weight initializers and
regularizers are fixed opaque values in the source and are omitted. -/

/-- A constructed layer, with the configuration the source passes to it. -/
inductive LayerDesc : Type
  /-- `keras.layers.Conv2D(filters, kernel_size, strides, padding, dilation_rate, use_bias)`. -/
  | conv2d (filters kernel_size strides : ℤ) (padding : String) (dilation_rate : ℤ)
      (use_bias : Bool)
  /-- `keras.layers.DepthwiseConv2D(kernel_size, strides, padding, dilation_rate, use_bias)`. -/
  | depthwiseConv2d (kernel_size strides : ℤ) (padding : String) (dilation_rate : ℤ)
      (use_bias : Bool)
  /-- `keras.layers.BatchNormalization()`. -/
  | batchNorm
  /-- `keras.layers.Lambda(lambda x: _activation(x, tag))`. -/
  | act (tag : String)
  /-- `_SqueezeAndExcitation(channels, se_ratio)` with its reduced channel count. -/
  | squeezeExcite (channels : ℤ) (se_ratio : ℚ) (reduced_ch : ℤ)
  /-- `keras.layers.GlobalAveragePooling2D()`. -/
  | globalAvgPool
  /-- `keras.layers.Flatten()`. -/
  | flatten
  /-- `keras.layers.Dense(units, ...)`; `hs_act` records `activation=hard_swish`. -/
  | dense (units : ℤ) (hs_act : Bool)
  /-- `keras.layers.Dropout(rate)`. -/
  | dropout (rate : ℚ)
deriving DecidableEq, Repr

/-- The Python argument `padding` of `_ConvBnActivationBlock` is dynamically
typed: the stem passes the int `1`, other sites pass the string `"same"`. -/
inductive PadArg : Type
  | pstr (s : String)
  | pint (n : ℤ)
deriving DecidableEq, Repr

/-- `_SqueezeAndExcitation.__init__(channels, se_ratio)` (source lines 43-65):
raises for a non-positive ratio, then computes
`reduced_ch = _round_to_multiple_of(channels * se_ratio, 8)`. -/
def mkSqueezeAndExcitation (channels : ℤ) (se_ratio : ℚ) : Except String LayerDesc :=
  if se_ratio ≤ 0 then .error "Squeeze and excitation depth ratio must be positive."
  else do
    let reduced_ch ← round_to_multiple_of ((channels : ℚ) * se_ratio) 8 (9/10)
    .ok (.squeezeExcite channels se_ratio reduced_ch)

/-- The state `_ConvBnActivationBlock.__init__` stores (source lines 80-107).
The constructed convolution always uses `padding="same"`; the `padding`
argument is stored but never forwarded. -/
structure ConvBnDesc : Type where
  out_ch : ℤ
  kernel_size : ℤ
  stride : ℤ
  padding : PadArg
  dilation : ℤ
  activation : String
  conv : LayerDesc
  bn : LayerDesc
deriving DecidableEq, Repr

/-- `_ConvBnActivationBlock.__init__` (source lines 80-107). -/
def mkConvBnActivationBlock (out_ch kernel_size stride : ℤ) (padding : PadArg)
    (dilation : ℤ) (activation : String) : ConvBnDesc :=
  { out_ch := out_ch
    kernel_size := kernel_size
    stride := stride
    padding := padding
    dilation := dilation
    activation := activation
    conv := .conv2d out_ch kernel_size stride "same" dilation false
    bn := .batchNorm }

/-- Apply one layer of a block's internal list to a tensor.  The external
tensor-engine layers are abstracted by `interp`; the activation lambdas are
the source's own `_activation` dispatch and can raise. -/
def applyLayer (interp : LayerDesc → Tensor → Tensor) (t : Tensor) (l : LayerDesc) :
    Except String Tensor :=
  match l with
  | .act tag => applyActivation tag t
  | _ => .ok (interp l t)

/-- Sequential application `for layer in self.layers: x = layer(x)`. -/
def foldLayers (interp : LayerDesc → Tensor → Tensor) (ls : List LayerDesc) (x : Tensor) :
    Except String Tensor :=
  ls.foldlM (applyLayer interp) x

/-- `_ConvBnActivationBlock.call` (source lines 109-112):
conv, then batch norm, then `_activation`. -/
def convBnActCall (interp : LayerDesc → Tensor → Tensor) (b : ConvBnDesc) (x : Tensor) :
    Except String Tensor :=
  applyActivation b.activation (interp b.bn (interp b.conv x))

/-- The state `_MobileNetV3Block.__init__` stores (source lines 126-201). -/
structure BlockDesc : Type where
  in_ch : ℤ
  exp_ch : ℤ
  out_ch : ℤ
  kernel_size : ℤ
  stride : ℤ
  dilation : ℤ
  se_ratio : Option ℚ
  activation : String
  allow_residual : Bool
  apply_residual : Bool
  name : String
  layers : List LayerDesc
deriving DecidableEq, Repr

/-- `_MobileNetV3Block.__init__` (source lines 126-201): the optional
pointwise expansion, the depthwise stage, the optional squeeze-excitation
(whose constructor can raise), and the linear projection.
`apply_residual = allow_residual and (in_ch == out_ch and stride == 1)`. -/
def mkMobileNetV3Block (in_ch exp_ch out_ch kernel_size stride dilation : ℤ)
    (se_ratio : Option ℚ) (activation : String) (allow_residual : Bool) (name : String) :
    Except String BlockDesc := do
  let seLayers : List LayerDesc ←
    match se_ratio with
    | none => pure []
    | some r => do
        let se ← mkSqueezeAndExcitation exp_ch r
        pure [se]
  let expand : List LayerDesc :=
    if in_ch ≠ exp_ch then
      [.conv2d exp_ch 1 1 "same" 1 false, .batchNorm, .act activation]
    else []
  let depthwise : List LayerDesc :=
    [.depthwiseConv2d kernel_size stride "same" dilation false, .batchNorm, .act activation]
  let project : List LayerDesc :=
    [.conv2d out_ch 1 1 "same" 1 false, .batchNorm]
  .ok
    { in_ch := in_ch
      exp_ch := exp_ch
      out_ch := out_ch
      kernel_size := kernel_size
      stride := stride
      dilation := dilation
      se_ratio := se_ratio
      activation := activation
      allow_residual := allow_residual
      apply_residual := allow_residual && (in_ch == out_ch && stride == 1)
      name := name
      layers := expand ++ depthwise ++ seLayers ++ project }

/-- `_MobileNetV3Block.call` (source lines 203-209): fold the layer list over
the input, then add the original input when `apply_residual` is set. -/
def blockCall (interp : LayerDesc → Tensor → Tensor) (b : BlockDesc) (x : Tensor) :
    Except String Tensor := do
  let y ← foldLayers interp b.layers x
  .ok (if b.apply_residual then y + x else y)

/-! ### Stage table, registry and the assembler `create_mobilenet_v3`

The per-variant stage tables live in the external module
`mobilenet_v3_configs` (`conf.CONFIG`), which is not part of this source
file; the registry is therefore a parameter, modelled as an association
list from variant name to row list, with Python's in-place list mutation
made explicit in the returned registry. -/

/-- One row `c` of a stage table: `in_ch, exp_ch, out_ch, kernel_size,
stride, dilation, se_ratio, activation = c` (source line 258).  The three
channel fields keep their positional names `c0, c1, c2` because the source
mutates them positionally (`c[0]`, `c[1]`, `c[2]`). -/
structure Row : Type where
  c0 : ℤ
  c1 : ℤ
  c2 : ℤ
  kernel_size : ℤ
  stride : ℤ
  dilation : ℤ
  se_ratio : Option ℚ
  activation : String
deriving DecidableEq, Repr

/-- The `conf.CONFIG` dict, as seen by `create_mobilenet_v3`. -/
abbrev Registry := List (String × List Row)

/-- Python `model_type in conf.CONFIG` / `conf.CONFIG[model_type]`. -/
def lookupRegistry (reg : Registry) (key : String) : Option (List Row) :=
  match reg with
  | [] => none
  | (k, v) :: rest => if k = key then some v else lookupRegistry rest key

/-- Replace the row list stored under `key` (the effect of Python's in-place
mutation of the list object held by the dict entry). -/
def updateRegistry (reg : Registry) (key : String) (v : List Row) : Registry :=
  match reg with
  | [] => []
  | (k, w) :: rest =>
      if k = key then (k, v) :: rest else (k, w) :: updateRegistry rest key v

/-- The loop body of source lines 241-244: each of the three channel fields
becomes `_round_to_multiple_of(c[i] * alpha, 8)`. -/
def scaleRow (alpha : ℚ) (c : Row) : Except String Row := do
  let a ← round_to_multiple_of ((c.c0 : ℚ) * alpha) 8 (9/10)
  let b ← round_to_multiple_of ((c.c1 : ℚ) * alpha) 8 (9/10)
  let d ← round_to_multiple_of ((c.c2 : ℚ) * alpha) 8 (9/10)
  .ok { c with c0 := a, c1 := b, c2 := d }

/-- Source lines 241-244 over the whole table. -/
def scaleConfig (alpha : ℚ) : List Row → Except String (List Row)
  | [] => .ok []
  | c :: rest => do
    let c' ← scaleRow alpha c
    let rest' ← scaleConfig alpha rest
    .ok (c' :: rest')

/-- Tail channel width selection (source lines 271-280): shallow tail for
variant names containing `"_segmentation"` or `"_detection"`; 960/480 when
the name contains `"large"`, 576/288 when it contains `"small"`, otherwise
`ValueError("Invalid model type")`; rounded only when `alpha < 1.0`. -/
def tailChannels (model_type : String) (alpha : ℚ) : Except String ℤ := do
  let shallow_tail := pyIn "_segmentation" model_type || pyIn "_detection" model_type
  let last_conv_ch : ℤ ←
    if pyIn "large" model_type then
      .ok (if !shallow_tail then (960 : ℤ) else 480)
    else if pyIn "small" model_type then
      .ok (if !shallow_tail then (576 : ℤ) else 288)
    else
      .error "Invalid model type"
  if alpha < 1 then round_to_multiple_of ((last_conv_ch : ℚ) * alpha) 8 (9/10)
  else .ok last_conv_ch

/-- The bottleneck stack loop (source lines 257-268): one
`_MobileNetV3Block` per row, applied to the running tensor.  The call site
passes `in_ch, exp_ch, out_ch, kernel_size, stride`, `se_ratio` and
`activation` and the name `f"bottleneck{idx}"`; it does not pass the row's
`dilation` (the block keeps its default `1`) nor `allow_residual`
(default `True`). -/
def buildBlocks (interp : LayerDesc → Tensor → Tensor) (idx : ℕ) :
    List Row → Tensor → Except String (List BlockDesc × Tensor)
  | [], x => .ok ([], x)
  | c :: rest, x => do
    let b ← mkMobileNetV3Block c.c0 c.c1 c.c2 c.kernel_size c.stride 1
      c.se_ratio c.activation true ("bottleneck" ++ toString idx)
    let x' ← blockCall interp b x
    let (bs, y) ← buildBlocks interp (idx + 1) rest x'
    .ok (b :: bs, y)

/-- The assembled `keras.Model`: the stem, the named bottleneck blocks, the
tail, the optional classifier head layers, and the output tensor. -/
structure Network : Type where
  stem : ConvBnDesc
  blocks : List BlockDesc
  tail : ConvBnDesc
  classifier : List LayerDesc
  output : Tensor

/-- Source lines 246-306, after the stage table has been scaled: stem
(`config[0][0]` raises `IndexError` on an empty table), bottleneck stack,
tail width and tail block, then the optional classifier head. -/
def buildNetwork (interp : LayerDesc → Tensor → Tensor) (config : List Row) (input : Tensor)
    (alpha : ℚ) (num_classes : ℤ) (dropout : ℚ) (model_type : String)
    (has_classifier : Bool) : Except String Network := do
  match config with
  | [] => .error "IndexError: list index out of range"
  | c0 :: _ => do
    let stem := mkConvBnActivationBlock c0.c0 3 2 (.pint 1) 1 "hardswish"
    let x ← convBnActCall interp stem input
    let (blocks, x) ← buildBlocks interp 0 config x
    let last_conv_ch ← tailChannels model_type alpha
    let tail := mkConvBnActivationBlock last_conv_ch 1 1 (.pstr "same") 1 "hardswish"
    let x ← convBnActCall interp tail x
    if has_classifier then
      let x := interp .globalAvgPool x
      let x := interp .flatten x
      let x := hardswishT (interp (.dense 1280 true) x)
      let x := interp (.dropout dropout) x
      let output := interp (.dense num_classes false) x
      .ok
        { stem := stem
          blocks := blocks
          tail := tail
          classifier :=
            [.globalAvgPool, .flatten, .dense 1280 true, .dropout dropout,
             .dense num_classes false]
          output := output }
    else
      .ok { stem := stem, blocks := blocks, tail := tail, classifier := [], output := x }

/-- `create_mobilenet_v3` (source lines 226-306).  Returns the build result
together with the registry as it stands after the call: the three asserts
fire before the table is touched; once `conf.CONFIG[model_type]` has been
fetched, the scaling loop mutates that shared entry in place. -/
def create_mobilenet_v3 (interp : LayerDesc → Tensor → Tensor) (registry : Registry)
    (input : Tensor) (alpha : ℚ) (num_classes : ℤ) (dropout : ℚ) (model_type : String)
    (has_classifier : Bool) : Except String Network × Registry :=
  if ¬ (0 < alpha) then (.error "AssertionError: alpha > 0.0", registry)
  else if ¬ (1 < num_classes) then (.error "AssertionError: num_classes > 1", registry)
  else
    match lookupRegistry registry model_type with
    | none => (.error "AssertionError: model_type in conf.CONFIG", registry)
    | some cfg =>
      match scaleConfig alpha cfg with
      | .error e => (.error e, registry)
      | .ok config =>
        (buildNetwork interp config input alpha num_classes dropout model_type has_classifier,
         updateRegistry registry model_type config)

/-! ### Concrete fixtures for witnesses and counterexamples -/

/-- A trivial tensor-engine interpretation (layers act as identity). -/
def interp0 : LayerDesc → Tensor → Tensor := fun _ t => t

/-- A concrete input tensor. -/
def input0 : Tensor := fun _ => 0

/-- A one-row stage table row: 16 channels throughout, 3×3 kernel, stride 2,
dilation 1, squeeze-excite ratio 0.25, ReLU. -/
def row16 : Row :=
  { c0 := 16, c1 := 16, c2 := 16, kernel_size := 3, stride := 2, dilation := 1
    se_ratio := some (1/4), activation := "relu" }

/-- A registry holding one `"small"` variant with the single row `row16`. -/
def registry16 : Registry := [("small", [row16])]

example :
    (create_mobilenet_v3 interp0 registry16 input0 (1/2) 1000 (1/5) "small" true).2
      = [("small",
          [{ c0 := 8, c1 := 8, c2 := 8, kernel_size := 3, stride := 2, dilation := 1
             se_ratio := some (1/4), activation := "relu" }])] := by
  with_unfolding_all decide

example :
    (Except.map (fun net => net.blocks.map (fun b => b.name))
      (create_mobilenet_v3 interp0 registry16 input0 (1/2) 1000 (1/5) "small" true).1)
      = .ok ["bottleneck0"] := by
  with_unfolding_all decide

/-! ### Definitions written from the specification text, for refinement claims -/

/-- Modelled from the spec (§4.1 Width Rounding Policy): candidate
`floor((value + divisor/2) / divisor) * divisor`, floored at `divisor`;
if the candidate is smaller than `bias * value`, advance to
`candidate + divisor`. -/
def round_to_multiple_spec (value : ℚ) (divisor : ℤ) (bias : ℚ) : ℤ :=
  let candidate := max divisor (⌊(value + (divisor : ℚ) / 2) / (divisor : ℚ)⌋ * divisor)
  if (candidate : ℚ) < bias * value then candidate + divisor else candidate

/-- Modelled from the spec (§4.6 step 5): tail width by size class and tail
shape, rounded exactly when the width multiplier is strictly below 1. -/
def tailChannelsSpec (model_type : String) (alpha : ℚ) : Except String ℤ :=
  let shallow := pyIn "_segmentation" model_type || pyIn "_detection" model_type
  let base : Except String ℤ :=
    if pyIn "large" model_type && !shallow then .ok 960
    else if pyIn "large" model_type && shallow then .ok 480
    else if pyIn "small" model_type && !shallow then .ok 576
    else if pyIn "small" model_type && shallow then .ok 288
    else .error "Invalid model type"
  base.bind fun w =>
    if alpha < 1 then round_to_multiple_of ((w : ℚ) * alpha) 8 (9/10) else .ok w

/-- The configuration a bottleneck block was built with, as one tuple. -/
def blockSignature (b : BlockDesc) :
    ℤ × ℤ × ℤ × ℤ × ℤ × ℤ × Option ℚ × String × Bool × String :=
  (b.in_ch, b.exp_ch, b.out_ch, b.kernel_size, b.stride, b.dilation, b.se_ratio,
   b.activation, b.allow_residual, b.name)

/-- Modelled from the spec (§4.6 step 4, amended): the block expected for
each row, in order — the row's channels, kernel size, stride, squeeze-excite
ratio and activation, dilation fixed to 1, residuals allowed, sequential
names. -/
def rowSignatures (idx : ℕ) :
    List Row → List (ℤ × ℤ × ℤ × ℤ × ℤ × ℤ × Option ℚ × String × Bool × String)
  | [] => []
  | c :: rest =>
      (c.c0, c.c1, c.c2, c.kernel_size, c.stride, (1 : ℤ), c.se_ratio, c.activation,
        true, "bottleneck" ++ toString idx) :: rowSignatures (idx + 1) rest

/-- `P` holds of the success value (vacuous on an error). -/
def ExceptAll {ε α : Type} (P : α → Prop) : Except ε α → Prop
  | .ok a => P a
  | .error _ => True

/-! ### Helper lemmas on the rounding policy -/

lemma pyInt_of_nonneg {q : ℚ} (h : 0 ≤ q) : pyInt q = ⌊q⌋ := if_pos h

lemma pyInt_intCast (k : ℤ) : pyInt (k : ℚ) = k := by
  unfold pyInt
  split <;> simp

lemma dvd_round_candidate (v : ℚ) (d : ℤ) : d ∣ round_candidate v d := by
  unfold round_candidate
  rcases max_choice d ((pyInt (v + (d : ℚ) / 2)).fdiv d * d) with h | h <;> rw [h]
  · exact dvd_mul_left d _

lemma le_round_candidate (v : ℚ) (d : ℤ) : d ≤ round_candidate v d := le_max_left _ _

lemma dvd_round_apply (v : ℚ) (d : ℤ) (b : ℚ) : d ∣ round_apply v d b := by
  unfold round_apply
  split
  · exact dvd_round_candidate v d
  · exact dvd_add (dvd_round_candidate v d) dvd_rfl

lemma le_round_apply (v : ℚ) (d : ℤ) (b : ℚ) (hd : 0 ≤ d) : d ≤ round_apply v d b := by
  unfold round_apply
  split
  · exact le_round_candidate v d
  · exact le_add_of_nonneg_left (hd.trans (le_round_candidate v d))

lemma round_to_multiple_of_eq (v : ℚ) (d : ℤ) (hd : d ≠ 0) :
    round_to_multiple_of v d (9/10) = .ok (round_apply v d (9/10)) := by
  unfold round_to_multiple_of
  rw [if_pos (by norm_num), if_neg hd]

/-- The candidate for a value that is already a multiple of 8 and at least 8
is that value itself. -/
lemma round_candidate_fixed {m : ℤ} (hdvd : 8 ∣ m) (hge : 8 ≤ m) :
    round_candidate (m : ℚ) 8 = m := by
  obtain ⟨k, hk⟩ := hdvd
  have hk1 : 1 ≤ k := by omega
  unfold round_candidate
  have h1 : pyInt ((m : ℚ) + ((8 : ℤ) : ℚ) / 2) = m + 4 := by
    rw [show (m : ℚ) + ((8 : ℤ) : ℚ) / 2 = ((m + 4 : ℤ) : ℚ) by push_cast; ring, pyInt_intCast]
  rw [h1]
  have h2 : (m + 4).fdiv 8 = k := by
    rw [Int.fdiv_eq_ediv _ (by norm_num), hk]
    omega
  rw [h2]
  omega

/-- Rounding a value that is already a multiple of 8, and at least 8, with
divisor 8 returns it unchanged. -/
lemma round_apply_fixed {m : ℤ} (hdvd : 8 ∣ m) (hge : 8 ≤ m) :
    round_apply (m : ℚ) 8 (9/10) = m := by
  unfold round_apply
  rw [round_candidate_fixed hdvd hge, if_pos]
  have hm : (0 : ℚ) ≤ (m : ℚ) := by exact_mod_cast (by omega : (0 : ℤ) ≤ m)
  nlinarith

/-- Floor of a rational divided by a positive integer, as integer division. -/
lemma floor_div_int_eq (q : ℚ) (d : ℤ) (hd : 0 < d) : ⌊q / (d : ℚ)⌋ = ⌊q⌋ / d := by
  have hd' : (0 : ℚ) < (d : ℚ) := by exact_mod_cast hd
  refine eq_of_forall_le_iff fun z => ?_
  rw [Int.le_floor, le_div_iff₀ hd', Int.le_ediv_iff_mul_le hd, Int.le_floor]
  push_cast
  exact Iff.rfl

/-- The source's truncate-then-floor-divide candidate agrees with the
specification's `floor((value + divisor/2) / divisor) * divisor` floored at
`divisor`.  (For a negative shifted value both forms fall at or below zero
and the `max` clamps both to `divisor`, so truncation toward zero and
flooring are interchangeable.) -/
lemma round_candidate_eq_spec (v : ℚ) (d : ℤ) (hd : 1 ≤ d) :
    round_candidate v d = max d (⌊(v + (d : ℚ) / 2) / (d : ℚ)⌋ * d) := by
  have hdq : (0 : ℚ) < (d : ℚ) := by exact_mod_cast (by omega : (0 : ℤ) < d)
  rcases le_or_lt 0 (v + (d : ℚ) / 2) with hq | hq
  · unfold round_candidate
    rw [pyInt_of_nonneg hq, floor_div_int_eq _ d (by omega),
      Int.fdiv_eq_ediv _ (by omega : (0 : ℤ) ≤ d)]
  · have h1 : pyInt (v + (d : ℚ) / 2) = ⌈v + (d : ℚ) / 2⌉ := if_neg (not_le.mpr hq)
    have h2 : ⌈v + (d : ℚ) / 2⌉ ≤ 0 := Int.ceil_le.mpr (by exact_mod_cast hq.le)
    have h3 : (⌈v + (d : ℚ) / 2⌉).fdiv d ≤ 0 := by
      rw [Int.fdiv_eq_ediv _ (by omega : (0 : ℤ) ≤ d)]
      have := Int.ediv_le_ediv (by omega : (0 : ℤ) < d) h2
      simpa using this
    have h4 : (⌈v + (d : ℚ) / 2⌉).fdiv d * d ≤ 0 := by
      have := mul_le_mul_of_nonneg_right h3 (by omega : (0 : ℤ) ≤ d)
      simpa using this
    have h5 : (v + (d : ℚ) / 2) / (d : ℚ) ≤ 0 :=
      div_nonpos_iff.mpr (Or.inr ⟨hq.le, hdq.le⟩)
    have h6 : ⌊(v + (d : ℚ) / 2) / (d : ℚ)⌋ ≤ 0 := by
      have := Int.floor_le_floor (α := ℚ) h5
      simpa using this
    have h7 : ⌊(v + (d : ℚ) / 2) / (d : ℚ)⌋ * d ≤ 0 := by
      have := mul_le_mul_of_nonneg_right h6 (by omega : (0 : ℤ) ≤ d)
      simpa using this
    unfold round_candidate
    rw [h1, max_eq_left (h4.trans (by omega)), max_eq_left (h7.trans (by omega))]

lemma round_apply_eq_spec (v : ℚ) (d : ℤ) (bias : ℚ) (hd : 1 ≤ d) :
    round_apply v d bias = round_to_multiple_spec v d bias := by
  have hc := round_candidate_eq_spec v d hd
  simp only [round_to_multiple_spec]
  rw [← hc]
  unfold round_apply
  rcases le_or_lt (bias * v) ((round_candidate v d : ℚ)) with h | h
  · rw [if_pos h, if_neg (not_lt.mpr h)]
  · rw [if_neg (not_le.mpr h), if_pos h]

lemma round_to_multiple_of_valid (v : ℚ) (d : ℤ) (bias : ℚ) (hb1 : 0 < bias)
    (hb2 : bias < 1) (hd : d ≠ 0) :
    round_to_multiple_of v d bias = .ok (round_apply v d bias) := by
  unfold round_to_multiple_of
  rw [if_pos ⟨hb1, hb2⟩, if_neg hd]

/-! ### Helper lemmas on activations, layer folds and block construction -/

lemma applyActivation_ok {tag : String} {t u : Tensor}
    (h : applyActivation tag t = .ok u) : tag = "relu" ∨ tag = "hardswish" := by
  unfold applyActivation at h
  by_cases h1 : tag = "relu"
  · exact .inl h1
  rw [if_neg h1] at h
  by_cases h2 : tag = "hardswish"
  · exact .inr h2
  rw [if_neg h2] at h
  exact absurd h (by simp)

lemma applyActivation_err {tag : String} (t : Tensor) (h1 : tag ≠ "relu")
    (h2 : tag ≠ "hardswish") :
    applyActivation tag t = .error ("Unsupported activation: " ++ tag ++ ".") := by
  unfold applyActivation
  rw [if_neg h1, if_neg h2]

lemma foldLayers_cons (interp : LayerDesc → Tensor → Tensor) (l : LayerDesc)
    (ls : List LayerDesc) (x : Tensor) :
    foldLayers interp (l :: ls) x =
      (applyLayer interp x l).bind (fun y => foldLayers interp ls y) := by
  cases h : applyLayer interp x l <;>
    simp only [foldLayers, List.foldlM_cons, h, Except.bind] <;> rfl

/-- If folding a layer list succeeds, every activation lambda in the list
carries a supported tag. -/
lemma foldLayers_ok_tag {interp : LayerDesc → Tensor → Tensor} {ls : List LayerDesc}
    {x y : Tensor} (h : foldLayers interp ls x = .ok y) {tag : String}
    (hm : LayerDesc.act tag ∈ ls) : tag = "relu" ∨ tag = "hardswish" := by
  induction ls generalizing x with
  | nil => cases hm
  | cons l rest ih =>
    rw [foldLayers_cons] at h
    cases happ : applyLayer interp x l with
    | error e => rw [happ] at h; exact absurd h (by simp [Except.bind])
    | ok t =>
      rw [happ] at h
      simp only [Except.bind] at h
      rcases List.mem_cons.mp hm with hl | hl
      · rw [← hl] at happ
        simp only [applyLayer] at happ
        exact applyActivation_ok happ
      · exact ih h hl

lemma mk_block_none (in_ch exp_ch out_ch kernel_size stride dilation : ℤ)
    (activation : String) (allow_residual : Bool) (name : String) :
    mkMobileNetV3Block in_ch exp_ch out_ch kernel_size stride dilation none activation
      allow_residual name = .ok
      { in_ch := in_ch, exp_ch := exp_ch, out_ch := out_ch, kernel_size := kernel_size
        stride := stride, dilation := dilation, se_ratio := none, activation := activation
        allow_residual := allow_residual
        apply_residual := allow_residual && (in_ch == out_ch && stride == 1)
        name := name
        layers :=
          (if in_ch ≠ exp_ch then
            [.conv2d exp_ch 1 1 "same" 1 false, .batchNorm, .act activation]
          else []) ++
          [.depthwiseConv2d kernel_size stride "same" dilation false, .batchNorm,
            .act activation] ++ [] ++
          [.conv2d out_ch 1 1 "same" 1 false, .batchNorm] } := rfl

lemma mk_block_some (in_ch exp_ch out_ch kernel_size stride dilation : ℤ) (r : ℚ)
    (activation : String) (allow_residual : Bool) (name : String) :
    mkMobileNetV3Block in_ch exp_ch out_ch kernel_size stride dilation (some r) activation
      allow_residual name =
      if r ≤ 0 then .error "Squeeze and excitation depth ratio must be positive."
      else .ok
        { in_ch := in_ch, exp_ch := exp_ch, out_ch := out_ch, kernel_size := kernel_size
          stride := stride, dilation := dilation, se_ratio := some r
          activation := activation, allow_residual := allow_residual
          apply_residual := allow_residual && (in_ch == out_ch && stride == 1)
          name := name
          layers :=
            (if in_ch ≠ exp_ch then
              [.conv2d exp_ch 1 1 "same" 1 false, .batchNorm, .act activation]
            else []) ++
            [.depthwiseConv2d kernel_size stride "same" dilation false, .batchNorm,
              .act activation] ++
            [.squeezeExcite exp_ch r (round_apply ((exp_ch : ℚ) * r) 8 (9/10))] ++
            [.conv2d out_ch 1 1 "same" 1 false, .batchNorm] } := by
  unfold mkMobileNetV3Block mkSqueezeAndExcitation
  dsimp only
  by_cases hr : r ≤ 0
  · rw [if_pos hr, if_pos hr]
    rfl
  · rw [if_neg hr, if_neg hr, round_to_multiple_of_eq _ 8 (by norm_num)]
    rfl

/-- What a successful block construction guarantees: the stored residual
flag, the presence of the activation lambda, and positivity of a supplied
squeeze-excite ratio. -/
lemma mk_block_ok {in_ch exp_ch out_ch kernel_size stride dilation : ℤ}
    {se_ratio : Option ℚ} {activation : String} {allow_residual : Bool} {name : String}
    {b : BlockDesc}
    (h : mkMobileNetV3Block in_ch exp_ch out_ch kernel_size stride dilation se_ratio
      activation allow_residual name = .ok b) :
    b.apply_residual = (allow_residual && (in_ch == out_ch && stride == 1)) ∧
    LayerDesc.act activation ∈ b.layers ∧
    (∀ r : ℚ, se_ratio = some r → 0 < r) ∧
    blockSignature b = (in_ch, exp_ch, out_ch, kernel_size, stride, dilation, se_ratio,
      activation, allow_residual, name) := by
  cases se_ratio with
  | none =>
    rw [mk_block_none] at h
    injection h with h
    subst h
    refine ⟨rfl, by simp, ?_, rfl⟩
    intro r hr
    cases hr
  | some r =>
    rw [mk_block_some] at h
    by_cases hr : r ≤ 0
    · rw [if_pos hr] at h; cases h
    · rw [if_neg hr] at h
      injection h with h
      subst h
      refine ⟨rfl, by simp, fun r' hr' => ?_, rfl⟩
      cases hr'
      exact not_le.mp hr

lemma exceptBind_ok {ε α β : Type} {e : Except ε α} {f : α → Except ε β} {b : β}
    (h : e.bind f = .ok b) : ∃ a, e = .ok a ∧ f a = .ok b := by
  cases e with
  | error _ => exact absurd h (by simp [Except.bind])
  | ok a => exact ⟨a, rfl, h⟩

/-- The row produced by the scaling loop (source lines 241-244), as a pure
function. -/
def scaledRow (alpha : ℚ) (c : Row) : Row :=
  { c with
    c0 := round_apply ((c.c0 : ℚ) * alpha) 8 (9/10)
    c1 := round_apply ((c.c1 : ℚ) * alpha) 8 (9/10)
    c2 := round_apply ((c.c2 : ℚ) * alpha) 8 (9/10) }

lemma scaleRow_eq (alpha : ℚ) (c : Row) : scaleRow alpha c = .ok (scaledRow alpha c) := by
  unfold scaleRow
  rw [round_to_multiple_of_eq _ 8 (by norm_num), round_to_multiple_of_eq _ 8 (by norm_num),
    round_to_multiple_of_eq _ 8 (by norm_num)]
  rfl

lemma scaleConfig_eq (alpha : ℚ) (cfg : List Row) :
    scaleConfig alpha cfg = .ok (cfg.map (scaledRow alpha)) := by
  induction cfg with
  | nil => rfl
  | cons c rest ih =>
    unfold scaleConfig
    rw [scaleRow_eq, ih]
    rfl

/-! ### Helper lemmas on the bottleneck stack and the assembled network -/

/-- A successful bottleneck stack build means every row carried a supported
activation tag and a positive squeeze-excite ratio (when one was given). -/
lemma buildBlocks_ok {interp : LayerDesc → Tensor → Tensor} {idx : ℕ} {cfg : List Row}
    {x : Tensor} {p : List BlockDesc × Tensor}
    (h : buildBlocks interp idx cfg x = .ok p) :
    ∀ c ∈ cfg, (c.activation = "relu" ∨ c.activation = "hardswish") ∧
      (∀ r : ℚ, c.se_ratio = some r → 0 < r) := by
  induction cfg generalizing idx x p with
  | nil => intro c hc; cases hc
  | cons c rest ih =>
    intro c' hc'
    unfold buildBlocks at h
    obtain ⟨b, hb, h⟩ := exceptBind_ok h
    obtain ⟨x', hx', h⟩ := exceptBind_ok h
    obtain ⟨q, hq, h⟩ := exceptBind_ok h
    obtain ⟨hres, hact, hse, hsig⟩ := mk_block_ok hb
    rcases List.mem_cons.mp hc' with rfl | hmem
    · refine ⟨?_, hse⟩
      unfold blockCall at hx'
      obtain ⟨y, hy, _⟩ := exceptBind_ok hx'
      exact foldLayers_ok_tag hy hact
    · exact ih hq c' hmem

/-- The blocks a successful stack build emits: one per row, in order, with
the row's parameters (dilation fixed at 1, residuals allowed) and sequential
names. -/
lemma buildBlocks_signatures {interp : LayerDesc → Tensor → Tensor} {idx : ℕ}
    {cfg : List Row} {x : Tensor} {p : List BlockDesc × Tensor}
    (h : buildBlocks interp idx cfg x = .ok p) :
    p.1.map blockSignature = rowSignatures idx cfg := by
  induction cfg generalizing idx x p with
  | nil =>
    unfold buildBlocks at h
    injection h with h
    subst h
    rfl
  | cons c rest ih =>
    unfold buildBlocks at h
    obtain ⟨b, hb, h⟩ := exceptBind_ok h
    obtain ⟨x', hx', h⟩ := exceptBind_ok h
    obtain ⟨q, hq, h⟩ := exceptBind_ok h
    obtain ⟨hres, hact, hse, hsig⟩ := mk_block_ok hb
    injection h with h
    subst h
    simp only [List.map_cons, rowSignatures]
    rw [hsig, ih hq]

/-- Decomposition of a successful `buildNetwork` run. -/
lemma buildNetwork_ok_parts {interp : LayerDesc → Tensor → Tensor} {cfg : List Row}
    {input : Tensor} {alpha : ℚ} {nc : ℤ} {dr : ℚ} {mt : String} {hc : Bool} {net : Network}
    (h : buildNetwork interp cfg input alpha nc dr mt hc = .ok net) :
    ∃ c0 rest x p w, cfg = c0 :: rest ∧
      convBnActCall interp (mkConvBnActivationBlock c0.c0 3 2 (.pint 1) 1 "hardswish") input
        = .ok x ∧
      buildBlocks interp 0 cfg x = .ok p ∧
      tailChannels mt alpha = .ok w ∧
      net.stem = mkConvBnActivationBlock c0.c0 3 2 (.pint 1) 1 "hardswish" ∧
      net.blocks = p.1 ∧
      net.tail = mkConvBnActivationBlock w 1 1 (.pstr "same") 1 "hardswish" := by
  cases cfg with
  | nil =>
    unfold buildNetwork at h
    simp at h
  | cons c0 rest =>
    unfold buildNetwork at h
    obtain ⟨x, hx, h⟩ := exceptBind_ok h
    obtain ⟨p, hp, h⟩ := exceptBind_ok h
    obtain ⟨blocks, x1⟩ := p
    obtain ⟨w, hw, h⟩ := exceptBind_ok h
    obtain ⟨x2, hx2, h⟩ := exceptBind_ok h
    cases hc with
    | true =>
      injection h with h
      subst h
      exact ⟨c0, rest, x, (blocks, x1), w, rfl, hx, hp, hw, rfl, rfl, rfl⟩
    | false =>
      injection h with h
      subst h
      exact ⟨c0, rest, x, (blocks, x1), w, rfl, hx, hp, hw, rfl, rfl, rfl⟩

/-- Decomposition of a successful `create_mobilenet_v3` call: the asserts
passed, the variant was registered, and the network was assembled from the
scaled copy of its table. -/
lemma create_ok_parts {interp : LayerDesc → Tensor → Tensor} {reg : Registry}
    {inp : Tensor} {alpha : ℚ} {nc : ℤ} {dr : ℚ} {mt : String} {hc : Bool} {net : Network}
    (h : (create_mobilenet_v3 interp reg inp alpha nc dr mt hc).1 = .ok net) :
    0 < alpha ∧ 1 < nc ∧ ∃ cfg, lookupRegistry reg mt = some cfg ∧
      buildNetwork interp (cfg.map (scaledRow alpha)) inp alpha nc dr mt hc = .ok net := by
  unfold create_mobilenet_v3 at h
  split at h
  next => simp at h
  next h1 =>
    split at h
    next => simp at h
    next h2 =>
      split at h
      next hreg => simp at h
      next cfg hreg =>
        rw [scaleConfig_eq] at h
        dsimp only at h
        exact ⟨not_not.mp h1, not_not.mp h2, cfg, hreg, h⟩

lemma tailChannels_err {mt : String} (hl : pyIn "large" mt = false)
    (hs : pyIn "small" mt = false) (alpha : ℚ) :
    tailChannels mt alpha = .error "Invalid model type" := by
  simp only [tailChannels, hl, hs, Bool.false_eq_true, if_false]
  rfl

/-! ### Claim theorems -/

/-- C3: the tail channel width is 960 for a "large" variant with full tail,
480 for "large" with shallow tail (name containing "_segmentation" or
"_detection"), 576 for "small" full tail, 288 for "small" shallow tail, any
name containing neither "large" nor "small" is a configuration error, and
the width is rounded via `round_to_multiple(width * multiplier, 8)` exactly
when the multiplier is strictly below 1. -/
theorem tailChannels_eq_spec :
    ∀ (model_type : String) (alpha : ℚ),
      tailChannels model_type alpha = tailChannelsSpec model_type alpha := by
  intro mt alpha
  unfold tailChannels tailChannelsSpec
  cases hl : pyIn "large" mt <;> cases hs : pyIn "small" mt <;>
    cases hsh : (pyIn "_segmentation" mt || pyIn "_detection" mt) <;>
      simp [hl, hs, hsh, Except.bind] <;> rfl

/-- C4: `round_to_multiple(value, divisor, bias)` computes
`floor((value + divisor/2) / divisor) * divisor` floored at `divisor`, then
advances to `candidate + divisor` exactly when the candidate is smaller
than `bias * value`; in particular `round_to_multiple(83, 8) = 80` and
`round_to_multiple(84, 8) = 88`. -/
theorem round_to_multiple_of_eq_spec :
    (∀ (value : ℚ) (divisor : ℤ) (bias : ℚ), 1 ≤ divisor → 0 < bias → bias < 1 →
      round_to_multiple_of value divisor bias = .ok (round_to_multiple_spec value divisor bias))
    ∧ round_to_multiple_of 83 8 (9/10) = .ok 80
    ∧ round_to_multiple_of 84 8 (9/10) = .ok 88 := by
  refine ⟨fun value divisor bias hd hb1 hb2 => ?_, ?_, ?_⟩
  · rw [round_to_multiple_of_valid value divisor bias hb1 hb2 (by omega),
      round_apply_eq_spec value divisor bias hd]
  · with_unfolding_all decide
  · with_unfolding_all decide

/-- C4 witness. -/
theorem round_to_multiple_of_eq_spec_witness :
    round_to_multiple_of 5 8 (9/10) = .ok (round_to_multiple_spec 5 8 (9/10)) :=
  round_to_multiple_of_eq_spec.1 5 8 (9/10) (by norm_num) (by norm_num) (by norm_num)

/-- C8 counterexample: with a negative divisor the claim fails on the code;
`round_to_multiple(10, -8)` returns 0, which is not a positive multiple. -/
theorem round_to_multiple_of_neg_divisor :
    round_to_multiple_of 10 (-8) (9/10) = .ok 0 ∧ ¬ (0 : ℤ) > 0 := by
  constructor
  · with_unfolding_all decide
  · decide

/-- C8 (amended to divisors `d ≥ 1`): `round_to_multiple(v, d)` with the
default bias returns a positive multiple of `d`. -/
theorem round_to_multiple_of_pos_multiple :
    ∀ (v : ℚ) (d : ℤ), 1 ≤ d →
      d ∣ round_apply v d (9/10) ∧ 0 < round_apply v d (9/10) ∧
      round_to_multiple_of v d (9/10) = .ok (round_apply v d (9/10)) := by
  intro v d hd
  exact ⟨dvd_round_apply v d _, lt_of_lt_of_le (by omega) (le_round_apply v d _ (by omega)),
    round_to_multiple_of_eq v d (by omega)⟩

/-- C8 witness. -/
theorem round_to_multiple_of_pos_multiple_witness :
    (8 : ℤ) ∣ round_apply 83 8 (9/10) ∧ 0 < round_apply 83 8 (9/10) ∧
    round_to_multiple_of 83 8 (9/10) = .ok (round_apply 83 8 (9/10)) :=
  round_to_multiple_of_pos_multiple 83 8 (by norm_num)

/-- C9: `round_to_multiple(·, 8)` is idempotent: rounding the rounded value
again returns it unchanged. -/
theorem round_to_multiple_of_idempotent :
    ∀ v : ℚ,
      (round_to_multiple_of v 8 (9/10)).bind
        (fun m => round_to_multiple_of (m : ℚ) 8 (9/10))
      = round_to_multiple_of v 8 (9/10) := by
  intro v
  rw [round_to_multiple_of_eq v 8 (by norm_num)]
  show round_to_multiple_of ((round_apply v 8 (9/10) : ℤ) : ℚ) 8 (9/10) = _
  rw [round_to_multiple_of_eq _ 8 (by norm_num),
    round_apply_fixed (dvd_round_apply v 8 _) (le_round_apply v 8 _ (by norm_num))]

/-- C10: the `padding` argument of the Conv-Norm-Activation block has no
effect: the constructed convolution always uses `"same"` padding, so two
blocks differing only in `padding` carry identical convolutions. -/
theorem convBnActivationBlock_padding_ignored :
    ∀ (out_ch kernel_size stride : ℤ) (p1 p2 : PadArg) (dilation : ℤ) (activation : String),
      (mkConvBnActivationBlock out_ch kernel_size stride p1 dilation activation).conv
        = (mkConvBnActivationBlock out_ch kernel_size stride p2 dilation activation).conv
      ∧ (mkConvBnActivationBlock out_ch kernel_size stride p1 dilation activation).conv
        = .conv2d out_ch kernel_size stride "same" dilation false := by
  intro out_ch kernel_size stride p1 p2 dilation activation
  exact ⟨rfl, rfl⟩

/-- C5: an inverted-residual bottleneck block adds its original input tensor
elementwise to the projection output iff `allow_residual`, equal input and
output channels, and stride 1 all hold; otherwise the output is the
projection result unchanged. -/
theorem blockCall_residual_iff :
    ∀ (interp : LayerDesc → Tensor → Tensor)
      (in_ch exp_ch out_ch kernel_size stride dilation : ℤ) (se_ratio : Option ℚ)
      (activation : String) (allow_residual : Bool) (name : String) (b : BlockDesc)
      (x : Tensor),
      mkMobileNetV3Block in_ch exp_ch out_ch kernel_size stride dilation se_ratio activation
        allow_residual name = .ok b →
      blockCall interp b x =
        (foldLayers interp b.layers x).map
          (fun y => if allow_residual = true ∧ in_ch = out_ch ∧ stride = 1 then y + x else y) := by
  intro interp in_ch exp_ch out_ch kernel_size stride dilation se_ratio activation
    allow_residual name b x h
  obtain ⟨hres, -, -, -⟩ := mk_block_ok h
  unfold blockCall
  cases hf : foldLayers interp b.layers x with
  | error e => rfl
  | ok y =>
    show (Except.ok y).bind _ = _
    rw [hres]
    exact congrArg Except.ok (if_congr (by simp [Bool.and_eq_true, beq_iff_eq]) rfl rfl)

/-- A concrete bottleneck block: 16 channels throughout, no expansion, no
squeeze-excitation, stride 1, residual active. -/
def blockB : BlockDesc :=
  { in_ch := 16, exp_ch := 16, out_ch := 16, kernel_size := 3, stride := 1, dilation := 1
    se_ratio := none, activation := "relu", allow_residual := true, apply_residual := true
    name := "b0"
    layers := [.depthwiseConv2d 3 1 "same" 1 false, .batchNorm, .act "relu",
               .conv2d 16 1 1 "same" 1 false, .batchNorm] }

/-- C5 witness. -/
theorem blockCall_residual_iff_witness :
    blockCall interp0 blockB input0 =
      (foldLayers interp0 blockB.layers input0).map
        (fun y => if true = true ∧ (16 : ℤ) = 16 ∧ (1 : ℤ) = 1 then y + input0 else y) :=
  blockCall_residual_iff interp0 16 16 16 3 1 1 none "relu" true "b0" blockB input0 (by decide)

/-- C6: for every channel count `C ≥ 1` and ratio `r > 0`, the
squeeze-excitation reduced channel count `round_to_multiple(C * r, 8)` is a
multiple of 8 and at least 8. -/
theorem squeezeExcitation_reduced_multiple :
    ∀ (channels : ℤ) (ratio : ℚ), 1 ≤ channels → 0 < ratio →
      mkSqueezeAndExcitation channels ratio
        = .ok (.squeezeExcite channels ratio
            (round_apply ((channels : ℚ) * ratio) 8 (9/10)))
      ∧ 8 ∣ round_apply ((channels : ℚ) * ratio) 8 (9/10)
      ∧ 8 ≤ round_apply ((channels : ℚ) * ratio) 8 (9/10) := by
  intro channels ratio hC hr
  refine ⟨?_, dvd_round_apply _ _ _, le_round_apply _ _ _ (by norm_num)⟩
  unfold mkSqueezeAndExcitation
  rw [if_neg (not_le.mpr hr), round_to_multiple_of_eq _ 8 (by norm_num)]
  rfl

/-- C6 witness. -/
theorem squeezeExcitation_reduced_multiple_witness :
    mkSqueezeAndExcitation 16 (1/4)
      = .ok (.squeezeExcite 16 (1/4) (round_apply (((16 : ℤ) : ℚ) * (1/4)) 8 (9/10)))
    ∧ (8 : ℤ) ∣ round_apply (((16 : ℤ) : ℚ) * (1/4)) 8 (9/10)
    ∧ (8 : ℤ) ≤ round_apply (((16 : ℤ) : ℚ) * (1/4)) 8 (9/10) :=
  squeezeExcitation_reduced_multiple 16 (1/4) (by norm_num) (by norm_num)

/-- C1 (code bug in the source): the scaling loop writes the rounded scaled
channels back into the shared registry entry, so after a call with width
multiplier 1/2 the stored "small" table no longer holds its original values
(16 became 8) — the claim that `conf.CONFIG[model_type]` is identical before
and after any call fails. -/
theorem create_mobilenet_v3_mutates_shared_table :
    (create_mobilenet_v3 interp0 registry16 input0 (1/2) 1000 (1/5) "small" true).2
      ≠ registry16
    ∧ (create_mobilenet_v3 interp0 registry16 input0 (1/2) 1000 (1/5) "small" true).2
      = [("small",
          [{ c0 := 8, c1 := 8, c2 := 8, kernel_size := 3, stride := 2, dilation := 1
             se_ratio := some (1/4), activation := "relu" }])] := by
  constructor
  · with_unfolding_all decide
  · with_unfolding_all decide

/-- A row whose dilation field is 2. -/
def rowDil : Row :=
  { c0 := 16, c1 := 16, c2 := 16, kernel_size := 3, stride := 1, dilation := 2
    se_ratio := none, activation := "relu" }

/-- A registry holding a "small" variant whose single row has dilation 2. -/
def registryDil : Registry := [("small", [rowDil])]

/-- C2 counterexample: a table row with dilation 2 yields a block built with
dilation 1 — the assembler does not forward the row's dilation. -/
theorem create_mobilenet_v3_ignores_row_dilation :
    lookupRegistry registryDil "small" = some [rowDil] ∧ rowDil.dilation = 2
    ∧ Except.map (fun net => net.blocks.map (fun b => (b.name, b.dilation)))
        (create_mobilenet_v3 interp0 registryDil input0 1 1000 (1/5) "small" true).1
      = .ok [("bottleneck0", 1)] := by
  refine ⟨by with_unfolding_all decide, rfl, ?_⟩
  with_unfolding_all decide

/-- C2 (amended): for each row of the scaled stage table, in order, the
assembler emits exactly one bottleneck block carrying that row's input,
expanded and output channels, kernel size, stride, squeeze-excite ratio and
activation tag, with dilation fixed at its default 1 and residuals always
allowed, and names the blocks bottleneck0, bottleneck1, … sequentially. -/
theorem create_mobilenet_v3_blocks_match_rows :
    ∀ (interp : LayerDesc → Tensor → Tensor) (reg : Registry) (input : Tensor)
      (alpha : ℚ) (num_classes : ℤ) (dropout : ℚ) (model_type : String)
      (has_classifier : Bool) (cfg : List Row),
      lookupRegistry reg model_type = some cfg →
      ExceptAll
        (fun net => net.blocks.map blockSignature
          = rowSignatures 0 (cfg.map (scaledRow alpha)))
        (create_mobilenet_v3 interp reg input alpha num_classes dropout model_type
          has_classifier).1 := by
  intro interp reg input alpha num_classes dropout model_type has_classifier cfg hlook
  cases hE : (create_mobilenet_v3 interp reg input alpha num_classes dropout model_type
      has_classifier).1 with
  | error e => exact trivial
  | ok net =>
    obtain ⟨-, -, cfg', hlook', hbuild⟩ := create_ok_parts hE
    rw [hlook] at hlook'
    injection hlook' with hcfg
    subst hcfg
    obtain ⟨c0, rest, x, p, w, hcfg_eq, hx, hp, hw, hstem, hblocks, htail⟩ :=
      buildNetwork_ok_parts hbuild
    show net.blocks.map blockSignature = _
    rw [hblocks]
    exact buildBlocks_signatures hp

/-- C2 witness. -/
theorem create_mobilenet_v3_blocks_match_rows_witness :
    ExceptAll
      (fun net => net.blocks.map blockSignature
        = rowSignatures 0 ([row16].map (scaledRow 1)))
      (create_mobilenet_v3 interp0 registry16 input0 1 1000 (1/5) "small" true).1 :=
  create_mobilenet_v3_blocks_match_rows interp0 registry16 input0 1 1000 (1/5) "small" true
    [row16] (by with_unfolding_all decide)

/-- A row with an unsupported activation tag. -/
def rowBadAct : Row :=
  { c0 := 16, c1 := 16, c2 := 16, kernel_size := 3, stride := 1, dilation := 1
    se_ratio := none, activation := "gelu" }

/-- A row with a non-positive squeeze-excite ratio. -/
def rowBadSe : Row :=
  { c0 := 16, c1 := 16, c2 := 16, kernel_size := 3, stride := 1, dilation := 1
    se_ratio := some (-1), activation := "relu" }

/-- A registry whose only variant name contains neither "small" nor "large". -/
def registryMed : Registry := [("medium", [row16])]

/-- C7: every invalid configuration is rejected with a synchronous error at
build time and no Network is returned: non-positive width multiplier,
`num_classes ≤ 1`, unknown variant name, unsupported activation tag in a
row, non-positive squeeze-excite ratio in a row, rounding bias outside
(0,1), and a variant name containing neither "small" nor "large"; in
particular `model_variant = "medium"` (unregistered) constructs no
Network. -/
theorem create_mobilenet_v3_rejects_invalid_config :
    (∀ (interp : LayerDesc → Tensor → Tensor) (reg : Registry) (input : Tensor) (alpha : ℚ)
       (num_classes : ℤ) (dropout : ℚ) (model_type : String) (has_classifier : Bool),
       alpha ≤ 0 →
       ((create_mobilenet_v3 interp reg input alpha num_classes dropout model_type
         has_classifier).1).isOk = false)
    ∧ (∀ (interp : LayerDesc → Tensor → Tensor) (reg : Registry) (input : Tensor) (alpha : ℚ)
        (num_classes : ℤ) (dropout : ℚ) (model_type : String) (has_classifier : Bool),
        num_classes ≤ 1 →
        ((create_mobilenet_v3 interp reg input alpha num_classes dropout model_type
          has_classifier).1).isOk = false)
    ∧ (∀ (interp : LayerDesc → Tensor → Tensor) (reg : Registry) (input : Tensor) (alpha : ℚ)
        (num_classes : ℤ) (dropout : ℚ) (model_type : String) (has_classifier : Bool),
        lookupRegistry reg model_type = none →
        ((create_mobilenet_v3 interp reg input alpha num_classes dropout model_type
          has_classifier).1).isOk = false)
    ∧ (∀ (interp : LayerDesc → Tensor → Tensor) (reg : Registry) (input : Tensor) (alpha : ℚ)
        (num_classes : ℤ) (dropout : ℚ) (model_type : String) (has_classifier : Bool)
        (cfg : List Row) (c : Row),
        lookupRegistry reg model_type = some cfg → c ∈ cfg →
        c.activation ≠ "relu" → c.activation ≠ "hardswish" →
        ((create_mobilenet_v3 interp reg input alpha num_classes dropout model_type
          has_classifier).1).isOk = false)
    ∧ (∀ (interp : LayerDesc → Tensor → Tensor) (reg : Registry) (input : Tensor) (alpha : ℚ)
        (num_classes : ℤ) (dropout : ℚ) (model_type : String) (has_classifier : Bool)
        (cfg : List Row) (c : Row) (r : ℚ),
        lookupRegistry reg model_type = some cfg → c ∈ cfg →
        c.se_ratio = some r → r ≤ 0 →
        ((create_mobilenet_v3 interp reg input alpha num_classes dropout model_type
          has_classifier).1).isOk = false)
    ∧ (∀ (v : ℚ) (d : ℤ) (bias : ℚ), ¬ (0 < bias ∧ bias < 1) →
        (round_to_multiple_of v d bias).isOk = false)
    ∧ (∀ (interp : LayerDesc → Tensor → Tensor) (reg : Registry) (input : Tensor) (alpha : ℚ)
        (num_classes : ℤ) (dropout : ℚ) (model_type : String) (has_classifier : Bool),
        pyIn "large" model_type = false → pyIn "small" model_type = false →
        ((create_mobilenet_v3 interp reg input alpha num_classes dropout model_type
          has_classifier).1).isOk = false)
    ∧ (∀ (interp : LayerDesc → Tensor → Tensor) (reg : Registry) (input : Tensor) (alpha : ℚ)
        (num_classes : ℤ) (dropout : ℚ) (has_classifier : Bool),
        lookupRegistry reg "medium" = none →
        ((create_mobilenet_v3 interp reg input alpha num_classes dropout "medium"
          has_classifier).1).isOk = false) := by
  have h3 : ∀ (interp : LayerDesc → Tensor → Tensor) (reg : Registry) (input : Tensor)
      (alpha : ℚ) (num_classes : ℤ) (dropout : ℚ) (model_type : String)
      (has_classifier : Bool),
      lookupRegistry reg model_type = none →
      ((create_mobilenet_v3 interp reg input alpha num_classes dropout model_type
        has_classifier).1).isOk = false := by
    intro interp reg input alpha nc dr mt hc hnone
    cases hE : (create_mobilenet_v3 interp reg input alpha nc dr mt hc).1 with
    | error e => rfl
    | ok net =>
      obtain ⟨-, -, cfg, hlook, -⟩ := create_ok_parts hE
      rw [hnone] at hlook
      cases hlook
  refine ⟨?_, ?_, h3, ?_, ?_, ?_, ?_,
    fun interp reg input alpha nc dr hc h => h3 interp reg input alpha nc dr "medium" hc h⟩
  · intro interp reg input alpha nc dr mt hc hα
    cases hE : (create_mobilenet_v3 interp reg input alpha nc dr mt hc).1 with
    | error e => rfl
    | ok net => exact absurd (create_ok_parts hE).1 (not_lt.mpr hα)
  · intro interp reg input alpha nc dr mt hc hnc
    cases hE : (create_mobilenet_v3 interp reg input alpha nc dr mt hc).1 with
    | error e => rfl
    | ok net => exact absurd (create_ok_parts hE).2.1 (not_lt.mpr hnc)
  · intro interp reg input alpha nc dr mt hc cfg c hlook hmem hne1 hne2
    cases hE : (create_mobilenet_v3 interp reg input alpha nc dr mt hc).1 with
    | error e => rfl
    | ok net =>
      obtain ⟨-, -, cfg', hlook', hbuild⟩ := create_ok_parts hE
      rw [hlook] at hlook'
      injection hlook' with hcfg
      subst hcfg
      obtain ⟨c0, rest, x, p, w, -, -, hp, -, -, -, -⟩ := buildNetwork_ok_parts hbuild
      have hmem' : scaledRow alpha c ∈ cfg.map (scaledRow alpha) :=
        List.mem_map_of_mem _ hmem
      have htag := (buildBlocks_ok hp _ hmem').1
      rcases htag with h | h
      · exact absurd h hne1
      · exact absurd h hne2
  · intro interp reg input alpha nc dr mt hc cfg c r hlook hmem hse hr
    cases hE : (create_mobilenet_v3 interp reg input alpha nc dr mt hc).1 with
    | error e => rfl
    | ok net =>
      obtain ⟨-, -, cfg', hlook', hbuild⟩ := create_ok_parts hE
      rw [hlook] at hlook'
      injection hlook' with hcfg
      subst hcfg
      obtain ⟨c0, rest, x, p, w, -, -, hp, -, -, -, -⟩ := buildNetwork_ok_parts hbuild
      have hmem' : scaledRow alpha c ∈ cfg.map (scaledRow alpha) :=
        List.mem_map_of_mem _ hmem
      have hpos := (buildBlocks_ok hp _ hmem').2 r hse
      exact absurd hpos (not_lt.mpr hr)
  · intro v d bias hb
    unfold round_to_multiple_of
    rw [if_neg hb]
    rfl
  · intro interp reg input alpha nc dr mt hc hl hs
    cases hE : (create_mobilenet_v3 interp reg input alpha nc dr mt hc).1 with
    | error e => rfl
    | ok net =>
      obtain ⟨-, -, cfg', hlook', hbuild⟩ := create_ok_parts hE
      obtain ⟨c0, rest, x, p, w, -, -, -, hw, -, -, -⟩ := buildNetwork_ok_parts hbuild
      rw [tailChannels_err hl hs alpha] at hw
      cases hw

/-- A registry whose "small" table has a row with an unsupported tag. -/
def registryBadAct : Registry := [("small", [rowBadAct])]

/-- A registry whose "small" table has a row with a non-positive ratio. -/
def registryBadSe : Registry := [("small", [rowBadSe])]

/-- C7 witness. -/
theorem create_mobilenet_v3_rejects_invalid_config_witness :
    ((create_mobilenet_v3 interp0 registry16 input0 (-1) 1000 (1/5) "small" true).1).isOk
      = false
    ∧ ((create_mobilenet_v3 interp0 registry16 input0 1 1 (1/5) "small" true).1).isOk = false
    ∧ ((create_mobilenet_v3 interp0 registry16 input0 1 1000 (1/5) "medium" true).1).isOk
      = false
    ∧ ((create_mobilenet_v3 interp0 registryBadAct input0 1 1000 (1/5) "small" true).1).isOk
      = false
    ∧ ((create_mobilenet_v3 interp0 registryBadSe input0 1 1000 (1/5) "small" true).1).isOk
      = false
    ∧ (round_to_multiple_of 5 8 2).isOk = false
    ∧ ((create_mobilenet_v3 interp0 registryMed input0 1 1000 (1/5) "medium" true).1).isOk
      = false
    ∧ ((create_mobilenet_v3 interp0 registry16 input0 2 1000 (1/5) "medium" true).1).isOk
      = false :=
  ⟨create_mobilenet_v3_rejects_invalid_config.1 interp0 registry16 input0 (-1) 1000 (1/5)
      "small" true (by norm_num),
   create_mobilenet_v3_rejects_invalid_config.2.1 interp0 registry16 input0 1 1 (1/5)
      "small" true (by norm_num),
   create_mobilenet_v3_rejects_invalid_config.2.2.1 interp0 registry16 input0 1 1000 (1/5)
      "medium" true (by with_unfolding_all decide),
   create_mobilenet_v3_rejects_invalid_config.2.2.2.1 interp0 registryBadAct input0 1 1000
      (1/5) "small" true [rowBadAct] rowBadAct (by with_unfolding_all decide)
      (List.Mem.head _) (by decide) (by decide),
   create_mobilenet_v3_rejects_invalid_config.2.2.2.2.1 interp0 registryBadSe input0 1 1000
      (1/5) "small" true [rowBadSe] rowBadSe (-1) (by with_unfolding_all decide)
      (List.Mem.head _) rfl (by norm_num),
   create_mobilenet_v3_rejects_invalid_config.2.2.2.2.2.1 5 8 2 (by norm_num),
   create_mobilenet_v3_rejects_invalid_config.2.2.2.2.2.2.1 interp0 registryMed input0 1
      1000 (1/5) "medium" true (by decide) (by decide),
   create_mobilenet_v3_rejects_invalid_config.2.2.2.2.2.2.2 interp0 registry16 input0 2
      1000 (1/5) true (by with_unfolding_all decide)⟩
